import Mathlib

/-!
Verification of the GitIgnore TUI (src/Module/Utility/GitIgnore/gitignore_tui.py).

Python strings are modelled by Lean strings; per-character operations act on
the underlying character lists.  Character classification (`isalnum`,
`isspace`) and lowercasing follow the ASCII behaviour of the Python
originals.  Machine time (`time.time()`) is modelled by integer seconds.
-/

/-- Lowercase a character list, as Python `str.lower` does per character. -/
def lowerData (s : List Char) : List Char := s.map Char.toLower

/-- Index of the first occurrence of `q` as a contiguous sublist of `t`,
mirroring Python `text.index(query)` / `query in text` (`none` when there is
no occurrence). -/
def firstOccurIdx (q : List Char) : List Char → Option Nat
  | [] => if q.isPrefixOf [] then some 0 else none
  | c :: t => if q.isPrefixOf (c :: t) then some 0 else (firstOccurIdx q t).map (· + 1)

/-- The subsequence-scoring loop of `fuzzy_search` (gitignore_tui.py lines
92-98): walk the text, and whenever the current character equals the next
unmatched query character add `100 - position` and advance the query.
Returns the remaining (unconsumed) query and the accumulated score. -/
def scanScore : List Char → List Char → Nat → Int → List Char × Int
  | q, [], _, score => (q, score)
  | q, c :: t, i, score =>
    match q with
    | [] => scanScore [] t (i + 1) score
    | qc :: q' =>
      if c = qc then scanScore q' t (i + 1) (score + (100 - (i : Int)))
      else scanScore (qc :: q') t (i + 1) score

/-- `fuzzy_search` from gitignore_tui.py lines 78-103. -/
def fuzzy_search (query text : List Char) : Bool × Int :=
  if query = [] then (true, 0)
  else
    let q := lowerData query
    let t := lowerData text
    match firstOccurIdx q t with
    | some i => (true, 1000 - (i : Int))
    | none =>
      let r := scanScore q t 0 0
      if r.1 = [] then (true, r.2) else (false, 0)

/-- Spec-side: the query occurs contiguously in the text at index `i`. -/
def OccursAt (q t : List Char) (i : Nat) : Prop := q.isPrefixOf (t.drop i) = true

/-- Spec-side: `i` is the index of the first contiguous occurrence. -/
def FirstOccursAt (q t : List Char) (i : Nat) : Prop :=
  OccursAt q t i ∧ ∀ j, j < i → ¬ OccursAt q t j

instance (q t : List Char) (i : Nat) : Decidable (OccursAt q t i) :=
  inferInstanceAs (Decidable (_ = true))

instance (q t : List Char) (i : Nat) : Decidable (FirstOccursAt q t i) :=
  inferInstanceAs (Decidable (OccursAt q t i ∧ ∀ j, j < i → ¬ OccursAt q t j))

/-- Spec-side single step of the left-to-right subsequence scan described by
the specification: state is (query pointer, score); a text character equal to
the next unmatched query character adds `100 - position` and advances the
pointer. -/
def specStep (q : List Char) (st : Nat × Int) (p : Nat × Char) : Nat × Int :=
  if h : st.1 < q.length then
    if p.2 = q.get ⟨st.1, h⟩ then (st.1 + 1, st.2 + (100 - (p.1 : Int))) else st
  else st

/-- Spec-side subsequence scan over the whole enumerated text. -/
def specScan (q t : List Char) : Nat × Int := t.enum.foldl (specStep q) (0, 0)

theorem occursAt_cons_succ (q : List Char) (c : Char) (t : List Char) (j : Nat) :
    OccursAt q (c :: t) (j + 1) ↔ OccursAt q t j := by
  simp [OccursAt]

theorem firstOccurIdx_eq_some (q : List Char) (t : List Char) (i : Nat) :
    firstOccurIdx q t = some i ↔ FirstOccursAt q t i := by
  induction t generalizing i with
  | nil =>
    by_cases hq : q.isPrefixOf [] = true
    · simp only [firstOccurIdx, hq, if_true]
      constructor
      · rintro h
        cases h
        exact ⟨hq, by omega⟩
      · rintro ⟨_, hmin⟩
        rcases Nat.eq_zero_or_pos i with h0 | hpos
        · simp [h0]
        · exact absurd (show OccursAt q [] 0 from hq) (hmin 0 hpos)
    · simp only [firstOccurIdx, hq, if_false]
      constructor
      · rintro ⟨⟩
      · rintro ⟨hocc, _⟩
        exact absurd (show q.isPrefixOf [] = true by simpa [OccursAt] using hocc) hq
  | cons c t ih =>
    by_cases hq : q.isPrefixOf (c :: t) = true
    · simp only [firstOccurIdx, hq, if_true]
      constructor
      · rintro h
        cases h
        exact ⟨hq, by omega⟩
      · rintro ⟨_, hmin⟩
        rcases Nat.eq_zero_or_pos i with h0 | hpos
        · simp [h0]
        · exact absurd (show OccursAt q (c :: t) 0 from hq) (hmin 0 hpos)
    · simp only [firstOccurIdx, hq, if_false]
      constructor
      · intro h
        rcases Option.map_eq_some'.mp h with ⟨i', hi', rfl⟩
        rcases (ih i').mp hi' with ⟨hocc, hmin⟩
        refine ⟨(occursAt_cons_succ q c t i').mpr hocc, ?_⟩
        intro j hj
        cases j with
        | zero => exact fun hc => hq hc
        | succ j' =>
          intro hc
          exact hmin j' (by omega) ((occursAt_cons_succ q c t j').mp hc)
      · rintro ⟨hocc, hmin⟩
        cases i with
        | zero => exact absurd hocc hq
        | succ i' =>
          have hi' : firstOccurIdx q t = some i' := by
            refine (ih i').mpr ⟨(occursAt_cons_succ q c t i').mp hocc, ?_⟩
            intro j hj hc
            exact hmin (j + 1) (by omega) ((occursAt_cons_succ q c t j).mpr hc)
          simp [hi']

theorem firstOccurIdx_eq_none (q : List Char) (t : List Char) :
    firstOccurIdx q t = none ↔ ∀ i, ¬ OccursAt q t i := by
  induction t with
  | nil =>
    by_cases hq : q.isPrefixOf [] = true
    · simp only [firstOccurIdx, hq, if_true]
      constructor
      · rintro ⟨⟩
      · intro h
        exact absurd (show OccursAt q [] 0 from hq) (h 0)
    · simp only [firstOccurIdx, hq, if_false]
      refine ⟨fun _ i hc => ?_, fun _ => rfl⟩
      exact hq (by simpa [OccursAt] using hc)
  | cons c t ih =>
    by_cases hq : q.isPrefixOf (c :: t) = true
    · simp only [firstOccurIdx, hq, if_true]
      constructor
      · rintro ⟨⟩
      · intro h
        exact absurd (show OccursAt q (c :: t) 0 from hq) (h 0)
    · simp only [firstOccurIdx, hq, Bool.false_eq_true, if_false, Option.map_eq_none']
      rw [ih]
      constructor
      · intro h i
        cases i with
        | zero => exact fun hc => hq hc
        | succ i' =>
          intro hc
          exact h i' ((occursAt_cons_succ q c t i').mp hc)
      · intro h i hc
        exact h (i + 1) ((occursAt_cons_succ q c t i).mpr hc)

theorem specStep_fst_le (q : List Char) (st : Nat × Int) (p : Nat × Char)
    (h : st.1 ≤ q.length) : (specStep q st p).1 ≤ q.length := by
  unfold specStep
  split
  · split
    · simpa using ‹st.1 < q.length›
    · exact h
  · exact h

theorem foldl_specStep_fst_le (q : List Char) (l : List (Nat × Char)) (st : Nat × Int)
    (h : st.1 ≤ q.length) : (l.foldl (specStep q) st).1 ≤ q.length := by
  induction l generalizing st with
  | nil => exact h
  | cons p l ih => exact ih _ (specStep_fst_le q st p h)

theorem scanScore_eq_foldl (q : List Char) (t : List Char) (p : Nat) (i : Nat) (sc : Int) :
    scanScore (q.drop p) t i sc =
      ((q.drop ((t.enumFrom i).foldl (specStep q) (p, sc)).1),
        ((t.enumFrom i).foldl (specStep q) (p, sc)).2) := by
  induction t generalizing p i sc with
  | nil => simp [scanScore]
  | cons c t ih =>
    by_cases hp : p < q.length
    · rw [List.drop_eq_getElem_cons hp]
      by_cases hc : c = q[p]
      · have hstep : specStep q (p, sc) (i, c) = (p + 1, sc + (100 - (i : Int))) := by
          simp [specStep, hp, hc, List.get_eq_getElem]
        calc scanScore (q[p] :: q.drop (p + 1)) (c :: t) i sc
            = scanScore (q.drop (p + 1)) t (i + 1) (sc + (100 - (i : Int))) := by
              simp [scanScore, hc]
          _ = _ := by
              rw [ih (p + 1) (i + 1) (sc + (100 - (i : Int)))]
              simp [List.enumFrom_cons, hstep]
      · have hstep : specStep q (p, sc) (i, c) = (p, sc) := by
          simp [specStep, hp, hc, List.get_eq_getElem]
        calc scanScore (q[p] :: q.drop (p + 1)) (c :: t) i sc
            = scanScore (q[p] :: q.drop (p + 1)) t (i + 1) sc := by
              simp [scanScore, hc]
          _ = scanScore (q.drop p) t (i + 1) sc := by rw [List.drop_eq_getElem_cons hp]
          _ = _ := by
              rw [ih p (i + 1) sc]
              simp [List.enumFrom_cons, hstep]
    · have hlen : q.length ≤ p := by omega
      have hdrop : q.drop p = [] := List.drop_eq_nil_of_le hlen
      have hstep : specStep q (p, sc) (i, c) = (p, sc) := by
        simp [specStep, hp]
      calc scanScore (q.drop p) (c :: t) i sc
          = scanScore [] t (i + 1) sc := by rw [hdrop]; simp [scanScore]
        _ = scanScore (q.drop p) t (i + 1) sc := by rw [hdrop]
        _ = _ := by
            rw [ih p (i + 1) sc]
            simp [List.enumFrom_cons, hstep]

theorem scanScore_eq_specScan (q t : List Char) :
    scanScore q t 0 0 = (q.drop (specScan q t).1, (specScan q t).2) := by
  have h := scanScore_eq_foldl q t 0 0 0
  simpa [specScan, List.enum] using h

theorem specScan_fst_le (q t : List Char) : (specScan q t).1 ≤ q.length :=
  foldl_specStep_fst_le q t.enum (0, 0) (Nat.zero_le _)

/-- C1: for every query and text, `fuzzy_search` returns a match with score 0
on the empty query; otherwise, comparing case-insensitively, a match with
score `1000 - i` when the query first occurs contiguously at index `i`;
otherwise it performs the left-to-right subsequence scan, matching with the
accumulated score exactly when the whole query is consumed, and reporting
`(false, 0)` otherwise. -/
theorem C1_fuzzy_search_spec (query text : List Char) :
    (query = [] → fuzzy_search query text = (true, 0)) ∧
    (query ≠ [] → ∀ i : Nat, FirstOccursAt (lowerData query) (lowerData text) i →
        fuzzy_search query text = (true, 1000 - (i : Int))) ∧
    (query ≠ [] → (∀ i : Nat, ¬ OccursAt (lowerData query) (lowerData text) i) →
        fuzzy_search query text =
          (if (specScan (lowerData query) (lowerData text)).1 = (lowerData query).length
           then (true, (specScan (lowerData query) (lowerData text)).2)
           else (false, 0))) := by
  refine ⟨fun h => by simp [fuzzy_search, h], fun h i hfirst => ?_, fun h hnone => ?_⟩
  · have hidx : firstOccurIdx (lowerData query) (lowerData text) = some i :=
      (firstOccurIdx_eq_some _ _ i).mpr hfirst
    simp [fuzzy_search, h, hidx]
  · have hidx : firstOccurIdx (lowerData query) (lowerData text) = none :=
      (firstOccurIdx_eq_none _ _).mpr hnone
    have hscan := scanScore_eq_specScan (lowerData query) (lowerData text)
    have hle := specScan_fst_le (lowerData query) (lowerData text)
    simp only [fuzzy_search, h, if_false, hidx, hscan]
    by_cases heq : (specScan (lowerData query) (lowerData text)).1 = (lowerData query).length
    · simp [heq, List.drop_eq_nil_of_le (le_of_eq heq.symm)]
    · have : ¬ (lowerData query).length ≤ (specScan (lowerData query) (lowerData text)).1 := by
        omega
      simp [heq, List.drop_eq_nil_iff, this]

/-- Witness for C1: the query "py" occurs first at index 0 of "python", so
the matcher returns a match with score 1000. -/
theorem C1_fuzzy_search_spec_witness :
    fuzzy_search "py".data "python".data = (true, 1000) := by
  have h := (C1_fuzzy_search_spec "py".data "python".data).2.1 (by decide) 0 (by decide)
  simpa using h

/-- Lexicographic comparison of character lists by code point, the order
Python uses to compare strings. -/
def lexLe : List Char → List Char → Bool
  | [], _ => true
  | _ :: _, [] => false
  | c :: cs, d :: ds => decide (c < d) || (decide (c = d) && lexLe cs ds)

theorem lexLe_refl (l : List Char) : lexLe l l = true := by
  induction l with
  | nil => rfl
  | cons c cs ih => simp [lexLe, ih]

theorem lexLe_total (a b : List Char) : lexLe a b = true ∨ lexLe b a = true := by
  induction a generalizing b with
  | nil => left; rfl
  | cons c cs ih =>
    cases b with
    | nil => right; rfl
    | cons d ds =>
      rcases lt_trichotomy c d with h | h | h
      · left; simp [lexLe, h]
      · rcases ih ds with h' | h'
        · left; simp [lexLe, h, h']
        · right; simp [lexLe, h.symm, h']
      · right; simp [lexLe, h]

theorem lexLe_trans (a b c : List Char) (hab : lexLe a b = true) (hbc : lexLe b c = true) :
    lexLe a c = true := by
  induction a generalizing b c with
  | nil => rfl
  | cons x xs ih =>
    cases b with
    | nil => simp [lexLe] at hab
    | cons y ys =>
      cases c with
      | nil => simp [lexLe] at hbc
      | cons z zs =>
        simp only [lexLe, Bool.or_eq_true, Bool.and_eq_true, decide_eq_true_eq] at hab hbc ⊢
        rcases hab with h1 | ⟨h1, h1'⟩
        · rcases hbc with h2 | ⟨h2, _⟩
          · exact Or.inl (lt_trans h1 h2)
          · exact Or.inl (h2 ▸ h1)
        · rcases hbc with h2 | ⟨h2, h2'⟩
          · exact Or.inl (h1 ▸ h2)
          · exact Or.inr ⟨h1.trans h2, ih ys zs h1' h2'⟩

/-- `str.lower` of a name, the sort tie-break key. -/
def lowerName (s : String) : String := ⟨lowerData s.data⟩

/-- Case-insensitive alphabetical order on names (Python key `str.lower`). -/
def alphaLe (a b : String) : Prop := lexLe (lowerName a).data (lowerName b).data = true

instance : DecidableRel alphaLe := fun _ _ => inferInstanceAs (Decidable (_ = true))

/-- `total_score` of gitignore_tui.py lines 352-353: fuzzy score plus
`usage_count * 10`. -/
def totalScore (ft : String) (usage : String → Nat) (t : String) : Int :=
  (fuzzy_search ft.data t.data).2 + (usage t : Int) * 10

/-- The comparison realised by the sort key of line 356,
`(-total_score, name.lower())` ascending: descending total score, with
ascending case-insensitive alphabetical tie-break. -/
def pairLe (x y : String × Int) : Prop :=
  y.2 < x.2 ∨ (x.2 = y.2 ∧ alphaLe x.1 y.1)

instance : DecidableRel pairLe := fun _ _ => inferInstanceAs (Decidable (_ ∨ _))

instance : IsTotal (String × Int) pairLe where
  total x y := by
    rcases lt_trichotomy x.2 y.2 with h | h | h
    · exact Or.inr (Or.inl h)
    · rcases lexLe_total (lowerName x.1).data (lowerName y.1).data with h' | h'
      · exact Or.inl (Or.inr ⟨h, h'⟩)
      · exact Or.inr (Or.inr ⟨h.symm, h'⟩)
    · exact Or.inl (Or.inl h)

instance : IsTrans (String × Int) pairLe where
  trans x y z hxy hyz := by
    rcases hxy with h1 | ⟨h1, h1'⟩
    · rcases hyz with h2 | ⟨h2, _⟩
      · exact Or.inl (lt_trans h2 h1)
      · exact Or.inl (h2 ▸ h1)
    · rcases hyz with h2 | ⟨h2, h2'⟩
      · exact Or.inl (h1 ▸ h2)
      · exact Or.inr ⟨h1.trans h2, lexLe_trans _ _ _ h1' h2'⟩

/-- The ranking order on template names: descending
`final_score = matchScore + usage_count * 10`, ties broken by ascending
case-insensitive alphabetical name. -/
def rankLe (ft : String) (usage : String → Nat) (a b : String) : Prop :=
  totalScore ft usage b < totalScore ft usage a ∨
  (totalScore ft usage a = totalScore ft usage b ∧ alphaLe a b)

theorem rankLe_refl (ft : String) (usage : String → Nat) (a : String) :
    rankLe ft usage a a := Or.inr ⟨rfl, lexLe_refl _⟩

/-- The `matches` list of (template, total_score) pairs built by
`_filter_templates_by_text` (lines 348-354). -/
def matchPairs (ft : String) (usage : String → Nat) (ts : List String) :
    List (String × Int) :=
  (ts.filter (fun t => (fuzzy_search ft.data t.data).1)).map
    (fun t => (t, totalScore ft usage t))

/-- The alphabetical sort used for the empty filter (line 346).  Python
`list.sort` is a stable sort; a stable insertion sort on the same key
computes the same list. -/
def sortAlpha (ts : List String) : List String := List.insertionSort alphaLe ts

/-- `_filter_templates_by_text` (lines 343-357): keep the fuzzy matches with
their `total_score`, sort by `(-total_score, name.lower())`, project the
names. -/
def filterTemplatesByText (ft : String) (usage : String → Nat) (ts : List String) :
    List String :=
  if ft = "" then sortAlpha ts
  else (List.insertionSort pairLe (matchPairs ft usage ts)).map Prod.fst

theorem filterTemplatesByText_perm (ft : String) (usage : String → Nat)
    (ts : List String) (hft : ft ≠ "") :
    (filterTemplatesByText ft usage ts).Perm
      (ts.filter (fun t => (fuzzy_search ft.data t.data).1)) := by
  unfold filterTemplatesByText
  rw [if_neg hft]
  have h1 := (List.perm_insertionSort pairLe (matchPairs ft usage ts)).map Prod.fst
  refine h1.trans ?_
  unfold matchPairs
  rw [List.map_map]
  have hid : (Prod.fst ∘ fun t : String => (t, totalScore ft usage t)) = id := by
    funext t
    rfl
  rw [hid, List.map_id]

theorem mem_matchPairs_snd (ft : String) (usage : String → Nat) (ts : List String)
    (p : String × Int) (hp : p ∈ matchPairs ft usage ts) :
    p.2 = totalScore ft usage p.1 := by
  unfold matchPairs at hp
  rcases List.mem_map.mp hp with ⟨t, _, rfl⟩
  rfl

theorem filterTemplatesByText_pairwise (ft : String) (usage : String → Nat)
    (ts : List String) (hft : ft ≠ "") :
    (filterTemplatesByText ft usage ts).Pairwise (rankLe ft usage) := by
  unfold filterTemplatesByText
  rw [if_neg hft]
  have hsorted : (List.insertionSort pairLe (matchPairs ft usage ts)).Pairwise pairLe :=
    List.sorted_insertionSort pairLe (matchPairs ft usage ts)
  rw [List.pairwise_map]
  refine hsorted.imp_of_mem ?_
  intro x y hx hy hxy
  have hx' : x ∈ matchPairs ft usage ts :=
    (List.perm_insertionSort pairLe (matchPairs ft usage ts)).mem_iff.mp hx
  have hy' : y ∈ matchPairs ft usage ts :=
    (List.perm_insertionSort pairLe (matchPairs ft usage ts)).mem_iff.mp hy
  have hx2 := mem_matchPairs_snd ft usage ts x hx'
  have hy2 := mem_matchPairs_snd ft usage ts y hy'
  rcases hxy with h | ⟨h, h'⟩
  · exact Or.inl (by rw [← hx2, ← hy2]; exact h)
  · exact Or.inr ⟨by rw [← hx2, ← hy2]; exact h, h'⟩

theorem mem_filterTemplatesByText (ft : String) (usage : String → Nat)
    (ts : List String) (hft : ft ≠ "") (t : String) :
    t ∈ filterTemplatesByText ft usage ts ↔
      t ∈ ts ∧ (fuzzy_search ft.data t.data).1 = true := by
  rw [(filterTemplatesByText_perm ft usage ts hft).mem_iff, List.mem_filter]

theorem rel_of_indexOf_lt {α : Type} [DecidableEq α] {R : α → α → Prop}
    {l : List α} (hp : l.Pairwise R) {a b : α} (ha : a ∈ l) (hb : b ∈ l)
    (h : List.indexOf a l < List.indexOf b l) : R a b := by
  have hb' : List.indexOf b l < l.length := List.indexOf_lt_length.mpr hb
  have ha' : List.indexOf a l < l.length := List.indexOf_lt_length.mpr ha
  have := (List.pairwise_iff_getElem.mp hp) (List.indexOf a l) (List.indexOf b l) ha' hb' h
  rwa [List.getElem_indexOf ha', List.getElem_indexOf hb'] at this

theorem indexOf_lt_of_not_rel {α : Type} [DecidableEq α] {R : α → α → Prop}
    {l : List α} (hp : l.Pairwise R) {a b : α} (ha : a ∈ l) (hb : b ∈ l)
    (hrefl : R a a) (h : ¬ R b a) : List.indexOf a l < List.indexOf b l := by
  rcases lt_trichotomy (List.indexOf a l) (List.indexOf b l) with hlt | heq | hgt
  · exact hlt
  · exfalso
    have ha' : List.indexOf a l < l.length := List.indexOf_lt_length.mpr ha
    have hb' : List.indexOf b l < l.length := List.indexOf_lt_length.mpr hb
    have : a = b := (List.indexOf_inj ha hb).mp heq
    exact h (this ▸ hrefl)
  · exact absurd (rel_of_indexOf_lt hp hb ha hgt) h

/-- C2: for every non-empty filter text, catalog list and usage-count map,
the filtered/ranked list is a permutation of exactly the fuzzy matches (so a
candidate whose `isMatch` is false never appears), and it is ordered by
`final_score = matchScore + usage_count * 10` descending with ties broken by
ascending case-insensitive alphabetical name. -/
theorem C2_filter_ranked (ft : String) (usage : String → Nat) (ts : List String)
    (hft : ft ≠ "") :
    (filterTemplatesByText ft usage ts).Perm
      (ts.filter (fun t => (fuzzy_search ft.data t.data).1)) ∧
    (∀ t, (fuzzy_search ft.data t.data).1 = false →
      t ∉ filterTemplatesByText ft usage ts) ∧
    (filterTemplatesByText ft usage ts).Pairwise (rankLe ft usage) := by
  refine ⟨filterTemplatesByText_perm ft usage ts hft, fun t hmatch hmem => ?_,
    filterTemplatesByText_pairwise ft usage ts hft⟩
  have := (mem_filterTemplatesByText ft usage ts hft t).mp hmem
  rw [hmatch] at this
  exact Bool.false_ne_true this.2

/-- Witness for C2: with query "py" over the catalog from the specification
scenario, the ranked list is a permutation of the fuzzy matches. -/
theorem C2_filter_ranked_witness :
    (filterTemplatesByText "py" (fun _ => 0) ["python", "node", "go"]).Perm
      (["python", "node", "go"].filter
        (fun t => (fuzzy_search "py".data t.data).1)) :=
  (C2_filter_ranked "py" (fun _ => 0) ["python", "node", "go"] (by decide)).1

/-- C7: with equal fuzzy match scores, raising one template's usage count
(all else equal) never lowers its rank relative to the other candidate in the
filtered/ranked list. -/
theorem C7_usage_boost_monotone (ft : String) (usage : String → Nat)
    (ts : List String) (a b : String) (k : Nat)
    (hscore : (fuzzy_search ft.data a.data).2 = (fuzzy_search ft.data b.data).2)
    (ha : a ∈ filterTemplatesByText ft usage ts)
    (hb : b ∈ filterTemplatesByText ft usage ts)
    (hrank : List.indexOf a (filterTemplatesByText ft usage ts) <
      List.indexOf b (filterTemplatesByText ft usage ts)) :
    List.indexOf a (filterTemplatesByText ft (Function.update usage a (usage a + k)) ts) <
    List.indexOf b (filterTemplatesByText ft (Function.update usage a (usage a + k)) ts) := by
  by_cases hft : ft = ""
  · subst hft
    simpa only [filterTemplatesByText, if_pos rfl] using hrank
  · rcases Nat.eq_zero_or_pos k with hk | hk
    · subst hk
      rw [Nat.add_zero, Function.update_eq_self]
      exact hrank
    · have hab : a ≠ b := by
        intro hcontra
        subst hcontra
        exact lt_irrefl _ hrank
      have hR : rankLe ft usage a b :=
        rel_of_indexOf_lt (filterTemplatesByText_pairwise ft usage ts hft) ha hb hrank
      set usage' := Function.update usage a (usage a + k) with husage'
      have hua : usage' a = usage a + k := Function.update_same a _ usage
      have hub : usage' b = usage b := Function.update_noteq (Ne.symm hab) _ usage
      have ha' : a ∈ filterTemplatesByText ft usage' ts := by
        rw [mem_filterTemplatesByText ft usage' ts hft]
        exact (mem_filterTemplatesByText ft usage ts hft a).mp ha
      have hb' : b ∈ filterTemplatesByText ft usage' ts := by
        rw [mem_filterTemplatesByText ft usage' ts hft]
        exact (mem_filterTemplatesByText ft usage ts hft b).mp hb
      have hnot : ¬ rankLe ft usage' b a := by
        have hstrict : totalScore ft usage' b < totalScore ft usage' a := by
          have hle : usage b ≤ usage a := by
            rcases hR with h | ⟨h, _⟩
            · unfold totalScore at h
              rw [hscore] at h
              omega
            · unfold totalScore at h
              rw [hscore] at h
              omega
          unfold totalScore
          rw [hscore, hua, hub]
          push_cast
          omega
        intro hcontra
        rcases hcontra with h | ⟨h, _⟩
        · exact absurd (lt_trans h hstrict) (lt_irrefl _)
        · rw [h] at hstrict
          exact lt_irrefl _ hstrict
      exact indexOf_lt_of_not_rel (filterTemplatesByText_pairwise ft usage' ts hft)
        ha' hb' (rankLe_refl ft usage' a) hnot

/-- Witness for C7: "ab" and "ac" both match "a" with score 1000; after
raising the usage count of "ab" by 3 it still ranks above "ac". -/
theorem C7_usage_boost_monotone_witness :
    List.indexOf "ab"
        (filterTemplatesByText "a" (Function.update (fun _ => 0) "ab" 3) ["ab", "ac"]) <
      List.indexOf "ac"
        (filterTemplatesByText "a" (Function.update (fun _ => 0) "ab" 3) ["ab", "ac"]) :=
  C7_usage_boost_monotone "a" (fun _ => 0) ["ab", "ac"] "ab" "ac" 3
    (by decide) (by decide) (by decide) (by decide)

/-- Python `str.strip`: drop leading and trailing whitespace. -/
def pyStrip (l : List Char) : List Char :=
  ((l.dropWhile Char.isWhitespace).reverse.dropWhile Char.isWhitespace).reverse

/-- The character filter of `get_templates` line 134: keep alphanumerics,
hyphen, underscore and dot. -/
def allowedChar (c : Char) : Bool := c.isAlphanum || c = '-' || c = '_' || c = '.'

/-- Sanitising one technology name (lines 133-134): strip surrounding
whitespace, then keep only allowed characters. -/
def sanitizeTech (s : String) : String := ⟨(pyStrip s.data).filter allowedChar⟩

/-- `clean_techs` of lines 131-136: sanitize each name and drop the names
that become empty. -/
def cleanTechs (l : List String) : List String :=
  (l.map sanitizeTech).filter (fun s => s != "")

/-- `GitIgnoreAPI.BASE_URL` (line 109). -/
def BASE_URL : String := "https://www.toptal.com/developers/gitignore/api"

/-- `GitIgnoreAPI.get_templates` (lines 126-144), with the remote fetch
`_fetch_url` abstracted as a function from request URL to response body. -/
def get_templates (remote : String → String) (technologies : List String) : String :=
  if technologies = [] then
    "# No templates selected\n# Select templates from the Available Templates panel"
  else if cleanTechs technologies = [] then "# No valid templates provided"
  else
    remote (BASE_URL ++ "/" ++ (String.intercalate "," (cleanTechs technologies)).toLower)

theorem whitespace_not_allowed (c : Char) (h : c.isWhitespace = true) :
    allowedChar c = false := by
  simp only [Char.isWhitespace, Bool.or_eq_true, decide_eq_true_eq] at h
  rcases h with ((h | h) | h) | h <;> subst h <;> decide

theorem filter_allowed_dropWhile (l : List Char) :
    (l.dropWhile Char.isWhitespace).filter allowedChar = l.filter allowedChar := by
  induction l with
  | nil => rfl
  | cons c l ih =>
    rw [List.dropWhile_cons]
    by_cases h : c.isWhitespace = true
    · rw [if_pos h, ih, List.filter_cons, whitespace_not_allowed c h]
      simp
    · rw [if_neg h]

theorem filter_allowed_pyStrip (l : List Char) :
    (pyStrip l).filter allowedChar = l.filter allowedChar := by
  unfold pyStrip
  rw [List.filter_reverse, filter_allowed_dropWhile, List.filter_reverse,
    List.reverse_reverse, filter_allowed_dropWhile]

theorem sanitizeTech_eq_filter (s : String) :
    sanitizeTech s = (⟨s.data.filter allowedChar⟩ : String) :=
  congrArg String.mk (filter_allowed_pyStrip s.data)

/-- C5: each name handed to `get_templates` is sanitized to its
alphanumeric/hyphen/underscore/dot characters with emptied names dropped;
when nothing survives the call returns a diagnostic placeholder without
consulting the remote service; otherwise the sanitized names are lowercased
and comma-joined into the request URL. -/
theorem C5_get_templates_sanitizes (technologies : List String) :
    cleanTechs technologies =
      (technologies.map (fun s => (⟨s.data.filter allowedChar⟩ : String))).filter
        (fun s => s != "") ∧
    (cleanTechs technologies = [] →
      (∀ r₁ r₂ : String → String,
        get_templates r₁ technologies = get_templates r₂ technologies) ∧
      (∀ r : String → String,
        get_templates r technologies =
            "# No templates selected\n# Select templates from the Available Templates panel" ∨
          get_templates r technologies = "# No valid templates provided")) ∧
    (cleanTechs technologies ≠ [] → ∀ r : String → String,
      get_templates r technologies =
        r (BASE_URL ++ "/" ++ (String.intercalate "," (cleanTechs technologies)).toLower)) := by
  refine ⟨?_, fun hclean => ⟨fun r₁ r₂ => ?_, fun r => ?_⟩, fun hclean r => ?_⟩
  · unfold cleanTechs
    have : sanitizeTech = fun s => (⟨s.data.filter allowedChar⟩ : String) :=
      funext sanitizeTech_eq_filter
    rw [this]
  · by_cases ht : technologies = []
    · simp [get_templates, ht]
    · simp [get_templates, ht, hclean]
  · by_cases ht : technologies = []
    · simp [get_templates, ht]
    · simp [get_templates, ht, hclean]
  · have ht : technologies ≠ [] := by
      intro hcontra
      exact hclean (by simp [hcontra, cleanTechs])
    simp [get_templates, ht, hclean]

/-- Witness for C5: a name that sanitizes away yields the same placeholder
regardless of the remote service, i.e. no network request is made. -/
theorem C5_get_templates_sanitizes_witness :
    get_templates (fun _ => "a") ["!!!"] = get_templates (fun _ => "b") ["!!!"] :=
  ((C5_get_templates_sanitizes ["!!!"]).2.1 (by decide)).1 (fun _ => "a") (fun _ => "b")

/-- Python string order (code-point lexicographic) on Lean strings. -/
def stringLe (a b : String) : Prop := lexLe a.data b.data = true

instance : DecidableRel stringLe := fun _ _ => inferInstanceAs (Decidable (_ = true))

/-- Python `sorted(list(selected_templates))`: code-point ascending order,
realised by a stable insertion sort. -/
def sortedSelection (sel : List String) : List String := List.insertionSort stringLe sel

/-- The 64-character rule of equals signs ending the header and separator
blocks. -/
def equalsRule : String := ⟨List.replicate 64 (Char.ofNat 61)⟩

/-- `_generate_header` (lines 670-686); the `strftime` timestamp is passed
in as a parameter. -/
def generateHeader (timestamp : String) (sel : List String) : String :=
  "# .gitignore file generated by MKAbuMattar.com\n# Generated on: " ++ timestamp ++
    "\n# Templates used: " ++ String.intercalate ", " (sortedSelection sel) ++
    "\n#\n# This file was created using the GitIgnore TUI tool\n# Visit: https://github.com/MKAbuMattar/powershell-profile\n#\n# " ++ equalsRule ++ "\n\n"

/-- The timestamped separator block the Append choice writes before the new
content (lines 798-800). -/
def appendSeparatorBlock (timestamp : String) (sel : List String) : String :=
  "\n\n# Added by MKAbuMattar.com on " ++ timestamp ++ "\n" ++
    "# Templates: " ++ String.intercalate ", " (sortedSelection sel) ++ "\n" ++
    "# " ++ equalsRule ++ "\n\n"

/-- The three keys accepted by the save-conflict dialog. -/
inductive SaveChoice
  | yes
  | no
  | append

/-- The resulting file contents of `_show_save_confirmation`
(lines 782-806) on a file currently holding `orig`, for each choice:
overwrite with header plus content, keep the file untouched, or append the
separator block and the new content (Python `open(..., 'a')` appends to the
existing bytes). -/
def saveConfirmationFile (orig timestamp : String) (sel : List String)
    (content : String) : SaveChoice → String
  | SaveChoice.yes => generateHeader timestamp sel ++ content
  | SaveChoice.no => orig
  | SaveChoice.append => orig ++ (appendSeparatorBlock timestamp sel ++ content)

/-- C3: choosing Append on an existing file produces exactly the original
bytes unchanged, then the timestamped separator block, then the new
generated content: the original is a prefix, the content is a suffix, and
the length is the exact sum, so nothing is lost or duplicated. -/
theorem C3_append_preserves_original (orig timestamp : String) (sel : List String)
    (content : String) :
    saveConfirmationFile orig timestamp sel content SaveChoice.append =
      orig ++ appendSeparatorBlock timestamp sel ++ content ∧
    orig.data <+:
      (saveConfirmationFile orig timestamp sel content SaveChoice.append).data ∧
    content.data <:+
      (saveConfirmationFile orig timestamp sel content SaveChoice.append).data ∧
    (saveConfirmationFile orig timestamp sel content SaveChoice.append).length =
      orig.length + (appendSeparatorBlock timestamp sel).length + content.length := by
  have hdef : saveConfirmationFile orig timestamp sel content SaveChoice.append =
      orig ++ (appendSeparatorBlock timestamp sel ++ content) := rfl
  refine ⟨?_, ?_, ?_, ?_⟩
  · rw [hdef, String.append_assoc]
  · rw [hdef, String.data_append]
    exact List.prefix_append _ _
  · rw [hdef, ← String.append_assoc, String.data_append]
    exact List.suffix_append _ _
  · rw [hdef, String.length_append, String.length_append]
    omega

/-- Decoded values of the usage-statistics file.  The universe is restricted
to the shapes relevant to `_load_usage_data` (a name-to-count mapping and a
list of names); wrong-typed values are represented by `sother`. -/
inductive StoredVal
  | sdict : List (String × Nat) → StoredVal
  | slist : List String → StoredVal
  | sother : StoredVal

/-- `_load_usage_data` (lines 259-274): `none` models a missing file or a
read/parse failure (fall back to the empty state); the `isinstance` checks
map to the constructor tests, so any decoded list stored under
`recently_used` is accepted as-is. -/
def loadUsageData (file : Option (List (String × StoredVal))) :
    (String → Nat) × List String :=
  match file with
  | none => (fun _ => 0, [])
  | some fields =>
    let usage : String → Nat :=
      match fields.lookup "usage" with
      | some (StoredVal.sdict m) => fun t => (m.lookup t).getD 0
      | _ => fun _ => 0
    let recent : List String :=
      match fields.lookup "recently_used" with
      | some (StoredVal.slist l) => l
      | _ => []
    (usage, recent)

/-- `_track_template_usage` (lines 289-299) on the usage map and
recently-used list: increment the count, remove the first occurrence of the
name if present, insert the name at the front, truncate to 10 entries.
(The synchronous persistence of line 299 is outside the state model.) -/
def trackTemplateUsage (usage : String → Nat) (recent : List String) (t : String) :
    (String → Nat) × List String :=
  (Function.update usage t (usage t + 1),
    (t :: (if t ∈ recent then recent.erase t else recent)).take 10)

/-- A whole sequence of `recordUse` calls. -/
def recordUses (usage : String → Nat) (recent : List String) (calls : List String) :
    (String → Nat) × List String :=
  calls.foldl (fun p t => trackTemplateUsage p.1 p.2 t) (usage, recent)

theorem trackTemplateUsage_nodup (usage : String → Nat) (recent : List String)
    (t : String) (h : recent.Nodup) : (trackTemplateUsage usage recent t).2.Nodup := by
  refine ((t :: (if t ∈ recent then recent.erase t else recent)).take_sublist 10).nodup ?_
  by_cases hmem : t ∈ recent
  · rw [if_pos hmem]
    refine List.nodup_cons.mpr ⟨?_, h.erase t⟩
    intro hcontra
    exact absurd rfl ((h.mem_erase_iff.mp hcontra).1)
  · rw [if_neg hmem]
    exact List.nodup_cons.mpr ⟨hmem, h⟩

theorem trackTemplateUsage_length (usage : String → Nat) (recent : List String)
    (t : String) : (trackTemplateUsage usage recent t).2.length ≤ 10 := by
  unfold trackTemplateUsage
  simp only [List.length_take]
  exact min_le_left _ _

/-- C6 counterexample: the claim quantifies over every reachable state, but
`_load_usage_data` accepts any decoded list for `recently_used`, so a usage
file holding a duplicated name produces a reachable state whose
recently-used list contains duplicates, and a subsequent `recordUse` (which
removes only the first occurrence) still leaves a duplicate. -/
theorem C6_recently_used_counterexample :
    ¬ (loadUsageData
        (some [("usage", StoredVal.sdict []),
               ("recently_used", StoredVal.slist ["a", "a"])])).2.Nodup ∧
    ¬ (trackTemplateUsage
        (loadUsageData
          (some [("usage", StoredVal.sdict []),
                 ("recently_used", StoredVal.slist ["a", "a"])])).1
        (loadUsageData
          (some [("usage", StoredVal.sdict []),
                 ("recently_used", StoredVal.slist ["a", "a"])])).2
        "a").2.Nodup := by
  constructor
  · decide
  · decide

/-- C6 amended: provided the starting recently-used list is duplicate-free
with at most 10 entries (as the empty fallback state is), every sequence of
`recordUse` calls preserves: at most 10 entries, no duplicates; and each
single `recordUse` increments the template's usage count, produces exactly
the first 10 entries of the name followed by the previous list with the
name's first occurrence removed, and so places the name at the front. -/
theorem C6_recently_used_invariant (usage : String → Nat) (recent : List String)
    (calls : List String) (hnd : recent.Nodup) (hlen : recent.length ≤ 10) :
    (recordUses usage recent calls).2.Nodup ∧
    (recordUses usage recent calls).2.length ≤ 10 ∧
    (∀ t, (trackTemplateUsage usage recent t).1 t = usage t + 1 ∧
      (trackTemplateUsage usage recent t).2 = (t :: recent.erase t).take 10 ∧
      (trackTemplateUsage usage recent t).2.head? = some t) := by
  refine ⟨?_, ?_, fun t => ⟨Function.update_same t _ usage, ?_, ?_⟩⟩
  · clear hlen
    unfold recordUses
    induction calls generalizing usage recent with
    | nil => exact hnd
    | cons c cs ih =>
      exact ih (trackTemplateUsage usage recent c).1
        (trackTemplateUsage usage recent c).2 (trackTemplateUsage_nodup usage recent c hnd)
  · unfold recordUses
    rcases calls with _ | ⟨c, cs⟩
    · exact hlen
    · have : ∀ (l : List String) (u : String → Nat) (r : List String),
          r.length ≤ 10 → (l.foldl (fun p t => trackTemplateUsage p.1 p.2 t) (u, r)).2.length ≤ 10 := by
        intro l
        induction l with
        | nil => intro u r hr; exact hr
        | cons x xs ih =>
          intro u r hr
          exact ih _ _ (trackTemplateUsage_length u r x)
      exact this (c :: cs) usage recent hlen
  · unfold trackTemplateUsage
    by_cases hmem : t ∈ recent
    · rw [if_pos hmem]
    · rw [if_neg hmem, List.erase_of_not_mem hmem]
  · unfold trackTemplateUsage
    simp [List.head?_take]

/-- Witness for C6 amended: starting from the empty fallback state, three
recorded uses keep the list duplicate-free and within the cap. -/
theorem C6_recently_used_invariant_witness :
    (recordUses (fun _ => 0) [] ["a", "b", "a"]).2.Nodup ∧
    (recordUses (fun _ => 0) [] ["a", "b", "a"]).2.length ≤ 10 :=
  ⟨(C6_recently_used_invariant (fun _ => 0) [] ["a", "b", "a"] (by decide) (by decide)).1,
   (C6_recently_used_invariant (fun _ => 0) [] ["a", "b", "a"] (by decide) (by decide)).2.1⟩

/-- The mutable fields of `GitIgnoreTUI` (lines 207-247) that the verified
claims range over.  The Python set `selected_templates` is modelled as a
duplicate-free list of names; `time.time()` timestamps are integer seconds;
the curses screen handle, the info-dialog timeout switch and the transient
`generation_in_progress` drawing flag are outside the model. -/
structure TUIState where
  running : Bool
  statusMessage : String
  errorMessage : String
  messageTimestamp : Int
  templates : List String
  selectedTemplates : List String
  generatedContent : String
  filterText : String
  filteredTemplates : List String
  templateUsage : String → Nat
  recentlyUsed : List String
  currentPanel : Nat
  templateScroll : Nat
  templateSelected : Nat
  selectedScroll : Nat
  selectedIndex : Nat
  contentScroll : Nat
  loading : Bool

/-- `_set_status_message` (lines 249-257). -/
def setStatusMessage (st : TUIState) (message : String) (isError : Bool) (now : Int) :
    TUIState :=
  if isError then
    { st with errorMessage := message, statusMessage := "", messageTimestamp := now }
  else
    { st with statusMessage := message, errorMessage := "", messageTimestamp := now }

/-- `_track_template_usage` acting on the application state (the synchronous
persistence of line 299 is outside the state model). -/
def trackUsageState (st : TUIState) (t : String) : TUIState :=
  { st with
      templateUsage := (trackTemplateUsage st.templateUsage st.recentlyUsed t).1,
      recentlyUsed := (trackTemplateUsage st.templateUsage st.recentlyUsed t).2 }

/-- The content produced by `_generate_content` (lines 313-331) for a given
selection, with the remote service abstracted as a function from URL to
response and the fetch assumed to complete (a failure response is part of
the abstracted function's behaviour). -/
def generateContent (remote : String → String) (sel : List String) : String :=
  if sel = [] then
    "# No templates selected\n# Select templates from the Available Templates panel"
  else get_templates remote (sortedSelection sel)

/-- `_generate_content` as a state update, run synchronously: on an empty
selection only the placeholder content is written (lines 315-317, which
return before any status message is set); otherwise the content is
regenerated and the success message of line 325 is set. -/
def generateContentUpdate (remote : String → String) (now : Int) (st : TUIState) :
    TUIState :=
  if st.selectedTemplates = [] then
    { st with generatedContent := generateContent remote st.selectedTemplates }
  else
    setStatusMessage
      { st with generatedContent := generateContent remote st.selectedTemplates }
      ("✓ Generated content for " ++ toString st.selectedTemplates.length ++ " templates")
      false now

/-- `_filter_templates` (lines 333-341). -/
def filterTemplatesUpdate (st : TUIState) : TUIState :=
  let ftl := if st.filterText = "" then st.templates
    else filterTemplatesByText st.filterText st.templateUsage st.templates
  let sel := if st.templateSelected ≥ ftl.length then ftl.length - 1
    else st.templateSelected
  { st with filteredTemplates := ftl, templateSelected := sel }

/-- The Catalog-panel toggle (lines 900-907) applied to a template name (the
caller passes `filtered_templates[template_selected]`): remove the name from
the selection when present, otherwise add it and record usage; in both cases
regenerate the content (modelled synchronously). -/
def toggleTemplate (remote : String → String) (now : Int) (st : TUIState)
    (template : String) : TUIState :=
  generateContentUpdate remote now
    (if template ∈ st.selectedTemplates then
      { st with selectedTemplates := st.selectedTemplates.erase template }
    else
      trackUsageState { st with selectedTemplates := template :: st.selectedTemplates }
        template)

/-- The Selected-panel removal (lines 909-917): the highlighted entry is
addressed by its position in the alphabetically sorted selected list; after
removal the cursor is re-clamped and the content regenerated. -/
def removeSelectedTemplate (remote : String → String) (now : Int) (st : TUIState) :
    TUIState :=
  if st.selectedIndex < (sortedSelection st.selectedTemplates).length then
    let st' := { st with
      selectedTemplates := st.selectedTemplates.erase
        ((sortedSelection st.selectedTemplates).getD st.selectedIndex "") }
    generateContentUpdate remote now
      (if st'.selectedIndex ≥ st'.selectedTemplates.length then
        { st' with selectedIndex := st'.selectedTemplates.length - 1 }
      else st')
  else st

/-- `_save_gitignore` (lines 688-705) with the file system modelled as the
optional current contents of `.gitignore`, and the `strftime` timestamp and
the dialog keypress as parameters; on an existing file the modal
`_show_save_confirmation` resolves through `saveConfirmationFile`. -/
def saveGitignore (timestamp : String) (choice : SaveChoice) (now : Int)
    (st : TUIState) (fs : Option String) : TUIState × Option String :=
  if st.generatedContent = "" ∨
      st.generatedContent.startsWith "# No templates selected" = true then
    (setStatusMessage st "No content to save - select templates first" true now, fs)
  else
    match fs with
    | none =>
      (setStatusMessage st
        ("✓ Saved to .gitignore (" ++
          toString (generateHeader timestamp st.selectedTemplates ++
            st.generatedContent).length ++ " chars)") false now,
        some (generateHeader timestamp st.selectedTemplates ++ st.generatedContent))
    | some orig =>
      match choice with
      | SaveChoice.yes =>
        (setStatusMessage st
          ("✓ Overwritten .gitignore (" ++
            toString (generateHeader timestamp st.selectedTemplates ++
              st.generatedContent).length ++ " chars)") false now,
          some (saveConfirmationFile orig timestamp st.selectedTemplates
            st.generatedContent SaveChoice.yes))
      | SaveChoice.no =>
        (setStatusMessage st "Save cancelled" false now,
          some (saveConfirmationFile orig timestamp st.selectedTemplates
            st.generatedContent SaveChoice.no))
      | SaveChoice.append =>
        (setStatusMessage st
          ("✓ Appended to .gitignore (" ++
            toString st.generatedContent.length ++ " chars)") false now,
          some (saveConfirmationFile orig timestamp st.selectedTemplates
            st.generatedContent SaveChoice.append))

/-- `_handle_input` (lines 808-925), with the screen height, the wall clock,
the remote service, the save-dialog keypress and the current contents of
`.gitignore` as parameters.  Background threads (content regeneration,
catalog reload) are modelled synchronously; the info dialog of line 843
draws and blocks but leaves the state unchanged. -/
def handleInput (remote : String → String) (timestamp : String) (choice : SaveChoice)
    (maxY : Int) (now : Int) (st : TUIState) (fs : Option String) (key : Int) :
    TUIState × Option String :=
  if key = 113 ∨ key = 81 ∨ key = 27 then
    if st.currentPanel ≠ 0 then ({ st with running := false }, fs)
    else
      ({ filterTemplatesUpdate
          { st with filterText := st.filterText.push (Char.ofNat key.toNat) } with
        templateSelected := 0, templateScroll := 0 }, fs)
  else if key = 9 then ({ st with currentPanel := (st.currentPanel + 1) % 4 }, fs)
  else if st.currentPanel = 0 then
    if key = 8 ∨ key = 127 then
      if st.filterText ≠ "" then
        ({ filterTemplatesUpdate
            { st with filterText := ⟨st.filterText.data.dropLast⟩ } with
          templateSelected := 0, templateScroll := 0 }, fs)
      else (st, fs)
    else if 32 ≤ key ∧ key ≤ 126 then
      ({ filterTemplatesUpdate
          { st with filterText := st.filterText.push (Char.ofNat key.toNat) } with
        templateSelected := 0, templateScroll := 0 }, fs)
    else (st, fs)
  else if key = 105 then (st, fs)
  else if key = 115 then saveGitignore timestamp choice now st fs
  else if key = 114 then
    ({ setStatusMessage st "Refreshing templates..." false now with loading := true }, fs)
  else if key = 99 then
    (setStatusMessage
      { st with selectedTemplates := [], generatedContent := "",
                selectedIndex := 0, selectedScroll := 0 }
      "Cleared all selections" false now, fs)
  else if key = 47 then
    (setStatusMessage { st with currentPanel := 0 }
      "Search mode - Type to filter templates" false now, fs)
  else if key = 259 then
    (if st.currentPanel = 1 then
      if st.filteredTemplates ≠ [] then
        { st with templateSelected := st.templateSelected - 1 }
      else st
    else if st.currentPanel = 2 then
      if st.selectedTemplates ≠ [] then
        { st with selectedIndex := st.selectedIndex - 1 }
      else st
    else if st.currentPanel = 3 then
      { st with contentScroll := st.contentScroll - 1 }
    else st, fs)
  else if key = 258 then
    (if st.currentPanel = 1 then
      if st.filteredTemplates ≠ [] then
        { st with templateSelected := min (st.filteredTemplates.length - 1) (st.templateSelected + 1) }
      else st
    else if st.currentPanel = 2 then
      if st.selectedTemplates ≠ [] then
        { st with selectedIndex := min (st.selectedTemplates.length - 1) (st.selectedIndex + 1) }
      else st
    else if st.currentPanel = 3 then
      { st with contentScroll := (min (max 0 ((if st.generatedContent ≠ "" then ((st.generatedContent.splitOn "\n").length : Int) else 0) - (maxY - 6))) ((st.contentScroll : Int) + 1)).toNat }
    else st, fs)
  else if key = 32 ∨ key = 10 ∨ key = 13 then
    if st.currentPanel = 1 then
      if st.filteredTemplates ≠ [] then
        (toggleTemplate remote now st
          (st.filteredTemplates.getD st.templateSelected ""), fs)
      else (st, fs)
    else if st.currentPanel = 2 then
      if st.selectedTemplates ≠ [] then (removeSelectedTemplate remote now st, fs)
      else (st, fs)
    else (st, fs)
  else
    if st.errorMessage ≠ "" ∧ now - st.messageTimestamp > 5 then
      ({ st with errorMessage := "" }, fs)
    else (st, fs)

/-- One iteration of the `run` loop (lines 1102-1114): input is handled only
when a key was actually read -- `getch` returns -1 on the poll timeout. -/
def loopStep (remote : String → String) (timestamp : String) (choice : SaveChoice)
    (maxY : Int) (now : Int) (st : TUIState) (fs : Option String) (key : Int) :
    TUIState × Option String :=
  if key ≠ -1 then handleInput remote timestamp choice maxY now st fs key else (st, fs)

/-- The freshly initialised application state (lines 207-247) with an empty
usage store. -/
def initialState : TUIState :=
  { running := true, statusMessage := "Loading templates...", errorMessage := "",
    messageTimestamp := 0, templates := [], selectedTemplates := [],
    generatedContent := "", filterText := "", filteredTemplates := [],
    templateUsage := fun _ => 0, recentlyUsed := [], currentPanel := 1,
    templateScroll := 0, templateSelected := 0, selectedScroll := 0,
    selectedIndex := 0, contentScroll := 0, loading := true }

theorem generateContentUpdate_selectedTemplates (remote : String → String) (now : Int)
    (st : TUIState) :
    (generateContentUpdate remote now st).selectedTemplates = st.selectedTemplates := by
  unfold generateContentUpdate setStatusMessage
  split <;> rfl

theorem generateContentUpdate_generatedContent (remote : String → String) (now : Int)
    (st : TUIState) :
    (generateContentUpdate remote now st).generatedContent =
      generateContent remote st.selectedTemplates := by
  unfold generateContentUpdate setStatusMessage
  split <;> rfl

theorem toggleTemplate_on (remote : String → String) (now : Int) (st : TUIState)
    (t : String) (h : t ∉ st.selectedTemplates) :
    (toggleTemplate remote now st t).selectedTemplates = t :: st.selectedTemplates ∧
    (toggleTemplate remote now st t).generatedContent =
      generateContent remote (t :: st.selectedTemplates) := by
  unfold toggleTemplate
  rw [if_neg h]
  refine ⟨?_, ?_⟩
  · rw [generateContentUpdate_selectedTemplates]
    rfl
  · rw [generateContentUpdate_generatedContent]
    rfl

theorem toggleTemplate_off (remote : String → String) (now : Int) (st : TUIState)
    (t : String) (h : t ∈ st.selectedTemplates) :
    (toggleTemplate remote now st t).selectedTemplates = st.selectedTemplates.erase t ∧
    (toggleTemplate remote now st t).generatedContent =
      generateContent remote (st.selectedTemplates.erase t) := by
  unfold toggleTemplate
  rw [if_pos h]
  exact ⟨by rw [generateContentUpdate_selectedTemplates],
    by rw [generateContentUpdate_generatedContent]⟩

/-- C4 counterexample: the claim ranges over every application state, but in
the freshly initialised state the generated content is the empty string;
selecting "python" and deselecting it again regenerates for the empty
selection and stores the placeholder text, so GeneratedContent is not
restored to its pre-toggle value. -/
theorem C4_toggle_counterexample :
    (toggleTemplate (fun _ => "x") 0
        (toggleTemplate (fun _ => "x") 0 initialState "python") "python").generatedContent ≠
      initialState.generatedContent := by decide

/-- C4 amended: toggling a template on and then off (with the remote
responses unchanged between the two regenerations) always restores the
SelectionSet, and restores GeneratedContent provided the pre-toggle content
equals the content regenerated from the pre-toggle selection — as holds in
any state in which a regeneration for the current selection has completed. -/
theorem C4_toggle_on_off_restores (remote : String → String) (now₁ now₂ : Int)
    (st : TUIState) (t : String) (hnot : t ∉ st.selectedTemplates)
    (hcontent : st.generatedContent = generateContent remote st.selectedTemplates) :
    (toggleTemplate remote now₂ (toggleTemplate remote now₁ st t) t).selectedTemplates =
      st.selectedTemplates ∧
    (toggleTemplate remote now₂ (toggleTemplate remote now₁ st t) t).generatedContent =
      st.generatedContent := by
  obtain ⟨hsel1, _⟩ := toggleTemplate_on remote now₁ st t hnot
  have hmem : t ∈ (toggleTemplate remote now₁ st t).selectedTemplates := by
    rw [hsel1]
    exact List.mem_cons_self t _
  obtain ⟨hsel2, hcon2⟩ := toggleTemplate_off remote now₂ (toggleTemplate remote now₁ st t) t hmem
  rw [hsel1, List.erase_cons_head] at hsel2 hcon2
  exact ⟨hsel2, by rw [hcon2, hcontent]⟩

/-- The initialised state after its first (empty-selection) regeneration has
completed: the generated content holds the placeholder text. -/
def syncedInitialState : TUIState :=
  { initialState with generatedContent :=
      "# No templates selected\n# Select templates from the Available Templates panel" }

/-- Witness for C4 amended: from a state whose content matches its (empty)
selection, selecting and deselecting "python" restores both fields. -/
theorem C4_toggle_on_off_restores_witness :
    (toggleTemplate (fun _ => "x") 0
        (toggleTemplate (fun _ => "x") 0 syncedInitialState "python") "python").selectedTemplates = [] ∧
    (toggleTemplate (fun _ => "x") 0
        (toggleTemplate (fun _ => "x") 0 syncedInitialState "python") "python").generatedContent =
      "# No templates selected\n# Select templates from the Available Templates panel" :=
  C4_toggle_on_off_restores (fun _ => "x") 0 0 syncedInitialState "python"
    (by decide) rfl

/-- A reachable state with a pending error message that was set at time 0. -/
def erroredState : TUIState :=
  { initialState with errorMessage := "Network error: timeout", statusMessage := "" }

/-- C8 counterexample: the error auto-clear sits after early returns in
every handled branch of `_handle_input`, and the run loop skips
`_handle_input` entirely when no key is read; so 100 seconds after an error
was set, an idle loop step (key -1) and a handled-key loop step (arrow up)
both leave the error message displayed, refuting that it never remains once
5 seconds have elapsed and a loop step occurs. -/
theorem C8_error_clear_counterexample :
    (loopStep (fun _ => "") "ts" SaveChoice.no 24 100 erroredState none (-1)).1.errorMessage =
      "Network error: timeout" ∧
    (loopStep (fun _ => "") "ts" SaveChoice.no 24 100 erroredState none 259).1.errorMessage =
      "Network error: timeout" := by
  exact ⟨rfl, rfl⟩

/-- C8 amended: error messages are auto-cleared only on a loop step that
read a key no branch handles while the Search panel is inactive, and then
only when more than 5 seconds have passed since the message was set; such a
step changes nothing else, the informational status message is never touched
by the lifecycle code, and a loop step that read no key leaves the state
unchanged.  Informational messages change only when another message is
explicitly set. -/
theorem C8_message_lifecycle (remote : String → String) (timestamp : String)
    (choice : SaveChoice) (maxY : Int) (now : Int) (st : TUIState)
    (fs : Option String) (key : Int)
    (hpanel : st.currentPanel ≠ 0)
    (hkey : ¬ (key = 113 ∨ key = 81 ∨ key = 27) ∧ key ≠ 9 ∧ key ≠ 105 ∧ key ≠ 115 ∧
      key ≠ 114 ∧ key ≠ 99 ∧ key ≠ 47 ∧ key ≠ 259 ∧ key ≠ 258 ∧
      ¬ (key = 32 ∨ key = 10 ∨ key = 13)) :
    (st.errorMessage ≠ "" ∧ now - st.messageTimestamp > 5 →
      handleInput remote timestamp choice maxY now st fs key =
        ({ st with errorMessage := "" }, fs)) ∧
    (¬ (st.errorMessage ≠ "" ∧ now - st.messageTimestamp > 5) →
      handleInput remote timestamp choice maxY now st fs key = (st, fs)) ∧
    (handleInput remote timestamp choice maxY now st fs key).1.statusMessage =
      st.statusMessage ∧
    loopStep remote timestamp choice maxY now st fs (-1) = (st, fs) := by
  obtain ⟨h1, h2, h3, h4, h5, h6, h7, h8, h9, h10⟩ := hkey
  have hfall : handleInput remote timestamp choice maxY now st fs key =
      if st.errorMessage ≠ "" ∧ now - st.messageTimestamp > 5 then
        ({ st with errorMessage := "" }, fs)
      else (st, fs) := by
    unfold handleInput
    rw [if_neg h1, if_neg h2, if_neg hpanel, if_neg h3, if_neg h4, if_neg h5,
      if_neg h6, if_neg h7, if_neg h8, if_neg h9, if_neg h10]
  refine ⟨fun hc => by rw [hfall, if_pos hc], fun hc => by rw [hfall, if_neg hc], ?_, ?_⟩
  · rw [hfall]
    split <;> rfl
  · unfold loopStep
    rw [if_neg (by simp)]

/-- Witness for C8 amended: an unhandled key ('x') on a non-Search panel,
100 seconds after the error was set, clears exactly the error message. -/
theorem C8_message_lifecycle_witness :
    handleInput (fun _ => "") "ts" SaveChoice.no 24 100 erroredState none 120 =
      ({ erroredState with errorMessage := "" }, none) :=
  (C8_message_lifecycle (fun _ => "") "ts" SaveChoice.no 24 100 erroredState none 120
    (by decide) (by decide)).1 ⟨by decide, by decide⟩

/-- C10: when the generated content is empty or begins with the placeholder
text, the save command only sets the error status message (which, as
`_set_status_message` always does, clears the informational message and
stamps the time) and returns with the file system and every other field of
the application state untouched. -/
theorem C10_save_without_content (timestamp : String) (choice : SaveChoice) (now : Int)
    (st : TUIState) (fs : Option String)
    (h : st.generatedContent = "" ∨
      st.generatedContent.startsWith "# No templates selected" = true) :
    saveGitignore timestamp choice now st fs =
      ({ st with errorMessage := "No content to save - select templates first",
                 statusMessage := "", messageTimestamp := now }, fs) := by
  unfold saveGitignore
  rw [if_pos h]
  rfl

/-- Witness for C10: in the freshly initialised state (empty content), the
save command leaves an existing file untouched and only sets the error
message. -/
theorem C10_save_without_content_witness :
    saveGitignore "ts" SaveChoice.yes 7 initialState (some "orig") =
      ({ initialState with
          errorMessage := "No content to save - select templates first",
          statusMessage := "", messageTimestamp := 7 }, some "orig") :=
  C10_save_without_content "ts" SaveChoice.yes 7 initialState (some "orig") (Or.inl rfl)


/-- Python `int()` on a float value: truncation toward zero. -/
def pyInt (x : ℚ) : Int := if x < 0 then -⌊-x⌋ else ⌊x⌋

/-- `_draw_scrollbar` geometry (lines 599-606): `none` when the bar is not
drawn (item count not exceeding the visible rows); otherwise the thumb
height and the thumb offset.  Python evaluates the two products in IEEE
binary64 floating point; the float division `a / b` and the int-to-float
conversion followed by multiplication `x * n` are abstracted as the
parameters `fdiv` and `fmul`, in the same way the remote service is
abstracted elsewhere.  IEEE round-to-nearest satisfies the relative-error
hypotheses the theorems place on them (at most one rounding per division
and two per conversion-and-multiply, a relative error below 2 ^ (-51), for
values in the normal range). -/
def drawScrollbarGeomF (fdiv : Nat → Nat → ℚ) (fmul : ℚ → Int → ℚ)
    (totalItems visibleItems barHeight scrollPosition : Nat) : Option (Int × Int) :=
  if totalItems ≤ visibleItems then none
  else
    some (max 1 (pyInt (fmul (fdiv visibleItems totalItems) (barHeight : Int))),
      pyInt (fmul (fdiv scrollPosition (max 1 (totalItems - visibleItems)))
        ((barHeight : Int) - max 1 (pyInt (fmul (fdiv visibleItems totalItems) (barHeight : Int))))))

/-- C9 counterexample: with 3 items, 2 visible rows, track height 4 and
scroll offset 0 the code computes thumb height `max(1, int((2/3) * 4)) = 2`,
while the claimed `round(2/3 * 4) = round(8/3) = 3`.  The exact
instantiation of the float parameters used here coincides with binary64 at
this input: the double product is 2.6666666666666665, which also truncates
to 2. -/
theorem C9_scrollbar_counterexample :
    drawScrollbarGeomF (fun a b => (a : ℚ) / b) (fun x n => x * (n : ℚ)) 3 2 4 0 =
      some (2, 0) ∧
    max 1 (round ((2 : ℚ) / 3 * 4)) = 3 ∧ (2 : Int) ≠ 3 := by
  refine ⟨?_, ?_, by decide⟩
  · unfold drawScrollbarGeomF
    rw [if_neg (by omega)]
    have e1 : ((2 : ℕ) : ℚ) / ((3 : ℕ) : ℚ) * (((4 : ℕ) : Int) : ℚ) = (8 : ℚ) / 3 := by
      push_cast
      ring
    have e2 : pyInt ((8 : ℚ) / 3) = 2 := by
      unfold pyInt
      rw [if_neg (by norm_num)]
      norm_num
    simp only []
    rw [e1, e2]
    have e3 : ((0 : ℕ) : ℚ) / ((max 1 (3 - 2) : ℕ) : ℚ) *
        ((((4 : ℕ) : Int) - max 1 2 : Int) : ℚ) = 0 := by
      push_cast
      ring
    rw [e3]
    have e4 : pyInt 0 = 0 := by
      unfold pyInt
      norm_num
    rw [e4]
    norm_num
  · have hr : round ((2 : ℚ) / 3 * 4) = 3 := by norm_num [round_eq]
    rw [hr]
    rfl

theorem pyInt_near_floor (F V : ℚ) (hV : 0 ≤ V) (hnear : |F - V| < 1) :
    |pyInt F - ⌊V⌋| ≤ 1 := by
  rw [abs_sub_lt_iff] at hnear
  obtain ⟨h1, h2⟩ := hnear
  by_cases hF : F < 0
  · have hpy : pyInt F = 0 := by
      unfold pyInt
      rw [if_pos hF]
      have hfl : ⌊-F⌋ = 0 := Int.floor_eq_zero_iff.mpr ⟨by linarith, by linarith⟩
      rw [hfl]
      rfl
    have hVfl : ⌊V⌋ = 0 := Int.floor_eq_zero_iff.mpr ⟨hV, by linarith⟩
    rw [hpy, hVfl]
    norm_num
  · push_neg at hF
    have hpy : pyInt F = ⌊F⌋ := by
      unfold pyInt
      rw [if_neg (not_lt.mpr hF)]
    rw [hpy]
    have hub : ⌊F⌋ ≤ ⌊V⌋ + 1 := by
      have hle : F ≤ V + 1 := by linarith
      have := Int.floor_le_floor hle
      rwa [Int.floor_add_one] at this
    have hlb : ⌊V⌋ ≤ ⌊F⌋ + 1 := by
      have hle : V ≤ F + 1 := by linarith
      have := Int.floor_le_floor hle
      rwa [Int.floor_add_one] at this
    rw [abs_le]
    omega

theorem abs_max_one_sub_le (a b : Int) : |max 1 a - max 1 b| ≤ |a - b| := by
  have h1 := le_abs_self (a - b)
  have h2 := neg_abs_le (a - b)
  rw [abs_le]
  rcases le_total 1 a with ha | ha <;> rcases le_total 1 b with hb | hb
  · rw [max_eq_right ha, max_eq_right hb]
    constructor <;> linarith
  · rw [max_eq_right ha, max_eq_left hb]
    constructor <;> linarith
  · rw [max_eq_left ha, max_eq_right hb]
    constructor <;> linarith
  · rw [max_eq_left ha, max_eq_left hb]
    constructor <;> linarith

theorem fdiv_nonneg_of_err (d xq ε : ℚ) (hx : 0 ≤ xq) (hε1 : ε ≤ 1)
    (hd : |d - xq| ≤ ε * xq) : 0 ≤ d := by
  have h1 := (abs_le.mp hd).1
  nlinarith [mul_nonneg hx (sub_nonneg.mpr hε1)]

theorem double_rounding_near (x n d F ε : ℚ)
    (hx : 0 ≤ x) (hn : 0 ≤ n) (hε : 0 ≤ ε)
    (hd : |d - x| ≤ ε * x) (hF : |F - d * n| ≤ ε * (d * n)) :
    |F - x * n| ≤ ε * (2 + ε) * (x * n) := by
  have hdub : d ≤ x * (1 + ε) := by
    have h2 := (abs_le.mp hd).2
    nlinarith
  have htri : |F - x * n| ≤ |F - d * n| + |d * n - x * n| := abs_sub_le F (d * n) (x * n)
  have hmid : |d * n - x * n| = |d - x| * n := by
    rw [← sub_mul, abs_mul, abs_of_nonneg hn]
  have hstep : |F - x * n| ≤ ε * (d * n) + (ε * x) * n := by
    have h3 := mul_le_mul_of_nonneg_right hd hn
    rw [hmid] at htri
    linarith
  have hfin : ε * (d * n) ≤ ε * (x * (1 + ε) * n) := by
    have hdn : d * n ≤ x * (1 + ε) * n := mul_le_mul_of_nonneg_right hdub hn
    exact mul_le_mul_of_nonneg_left hdn hε
  have hring : ε * (x * (1 + ε) * n) + (ε * x) * n = ε * (2 + ε) * (x * n) := by ring
  linarith

/-- C9 amended: the scrollbar is rendered only when the item count exceeds
the visible rows, and the thumb geometry is computed in floating point, not
by the claimed exact `round` formulas: for any float division and
conversion-and-multiplication within relative error `ε ≤ 1` of exact (as
IEEE binary64 round-to-nearest is, with `ε = 2 ^ (-51)`), once the
accumulated error is below one — as the bound hypothesis guarantees for all
realistic sizes — the thumb height lies within one of
`max 1 ⌊visibleRows / totalRows × trackHeight⌋` (floor, not round), is at
least 1 and at most the track height, and the thumb offset lies within one
of `⌊scrollOffset / (totalRows − visibleRows) × (trackHeight −
thumbHeight)⌋`. -/
theorem C9_scrollbar_geometry (fdiv : Nat → Nat → ℚ) (fmul : ℚ → Int → ℚ) (ε : ℚ)
    (t v h s : Nat)
    (hdiv : ∀ a b : Nat, 0 < b → |fdiv a b - (a : ℚ) / b| ≤ ε * ((a : ℚ) / b))
    (hmul : ∀ (x : ℚ) (n : Int), 0 ≤ x → 0 ≤ n →
      |fmul x n - x * (n : ℚ)| ≤ ε * (x * (n : ℚ)))
    (hε : 0 ≤ ε) (hε1 : ε ≤ 1)
    (hbound : ε * (2 + ε) * ((h : ℚ) * ((s : ℚ) + 1)) < 1) :
    (t ≤ v → drawScrollbarGeomF fdiv fmul t v h s = none) ∧
    (v < t → 1 ≤ h → ∃ th tp : Int,
      drawScrollbarGeomF fdiv fmul t v h s = some (th, tp) ∧
      1 ≤ th ∧ th ≤ (h : Int) ∧
      |th - max 1 ⌊(v : ℚ) / (t : ℚ) * (h : ℚ)⌋| ≤ 1 ∧
      |tp - ⌊(s : ℚ) / ((t - v : Nat) : ℚ) * (((h : Int) - th : Int) : ℚ)⌋| ≤ 1) := by
  constructor
  · intro hle
    unfold drawScrollbarGeomF
    rw [if_pos hle]
  · intro hvt hh
    have ht0 : 0 < t := by omega
    have htQ : (0 : ℚ) < (t : ℚ) := by exact_mod_cast ht0
    have hhQ : (1 : ℚ) ≤ (h : ℚ) := by exact_mod_cast hh
    have hh0Q : (0 : ℚ) ≤ (h : ℚ) := by positivity
    have hsQ : (0 : ℚ) ≤ (s : ℚ) := by positivity
    have hfac : 0 ≤ ε * (2 + ε) := by positivity
    set x : ℚ := (v : ℚ) / (t : ℚ) with hxdef
    have hx0 : 0 ≤ x := by positivity
    have hx1 : x ≤ 1 := by
      rw [hxdef, div_le_one htQ]
      exact_mod_cast le_of_lt hvt
    have hd₁ : |fdiv v t - x| ≤ ε * x := by
      rw [hxdef]
      exact hdiv v t ht0
    have hd₁nn : 0 ≤ fdiv v t := fdiv_nonneg_of_err (fdiv v t) x ε hx0 hε1 hd₁
    have hm₁ : |fmul (fdiv v t) (h : Int) - fdiv v t * (h : ℚ)| ≤
        ε * (fdiv v t * (h : ℚ)) := by
      have := hmul (fdiv v t) (h : Int) hd₁nn (by exact_mod_cast Nat.zero_le h)
      simpa using this
    set F₁ : ℚ := fmul (fdiv v t) (h : Int) with hF₁def
    have hF₁near : |F₁ - x * (h : ℚ)| ≤ ε * (2 + ε) * (x * (h : ℚ)) :=
      double_rounding_near x (h : ℚ) (fdiv v t) F₁ ε hx0 hh0Q hε hd₁ hm₁
    have hV₁h : x * (h : ℚ) ≤ (h : ℚ) := by
      calc x * (h : ℚ) ≤ 1 * (h : ℚ) := mul_le_mul_of_nonneg_right hx1 hh0Q
        _ = (h : ℚ) := one_mul _
    have hh1 : (h : ℚ) ≤ (h : ℚ) * ((s : ℚ) + 1) := by nlinarith [mul_nonneg hh0Q hsQ]
    have hV₁bound : ε * (2 + ε) * (x * (h : ℚ)) < 1 := by
      have hmono := mul_le_mul_of_nonneg_left (le_trans hV₁h hh1) hfac
      linarith
    have hF₁lt : |F₁ - x * (h : ℚ)| < 1 := lt_of_le_of_lt hF₁near hV₁bound
    have hV₁0 : 0 ≤ x * (h : ℚ) := by positivity
    have hnear₁ : |pyInt F₁ - ⌊x * (h : ℚ)⌋| ≤ 1 := pyInt_near_floor F₁ _ hV₁0 hF₁lt
    set th : Int := max 1 (pyInt F₁) with hthdef
    have hth1 : (1 : Int) ≤ th := le_max_left _ _
    have h1h : (1 : Int) ≤ (h : Int) := by exact_mod_cast hh
    have hthh : th ≤ (h : Int) := by
      have hFlt : F₁ < (h : ℚ) + 1 := by
        have := (abs_sub_lt_iff.mp hF₁lt).1
        linarith
      have hpyle : pyInt F₁ ≤ (h : Int) := by
        unfold pyInt
        split
        next hneg =>
          have h0 : (0 : Int) ≤ ⌊-F₁⌋ := Int.floor_nonneg.mpr (by linarith)
          omega
        next =>
          have hfl : ⌊F₁⌋ < (h : Int) + 1 := by
            rw [Int.floor_lt]
            push_cast
            linarith
          omega
      rw [hthdef]
      exact max_le h1h hpyle
    have hprox₁ : |th - max 1 ⌊x * (h : ℚ)⌋| ≤ 1 := by
      rw [hthdef]
      exact le_trans (abs_max_one_sub_le (pyInt F₁) ⌊x * (h : ℚ)⌋) hnear₁
    have htv1 : 1 ≤ t - v := by omega
    have hmaxtv : max 1 (t - v) = t - v := max_eq_right htv1
    have hdd1 : (1 : ℚ) ≤ ((t - v : Nat) : ℚ) := by exact_mod_cast htv1
    set y : ℚ := (s : ℚ) / ((t - v : Nat) : ℚ) with hydef
    have hy0 : 0 ≤ y := by positivity
    have hys : y ≤ (s : ℚ) := by
      rw [hydef]
      exact div_le_self hsQ hdd1
    set n₂ : Int := (h : Int) - th with hn₂def
    have hn₂0 : (0 : Int) ≤ n₂ := by omega
    have hn₂Q : (0 : ℚ) ≤ ((n₂ : Int) : ℚ) := by exact_mod_cast hn₂0
    have hn₂h : ((n₂ : Int) : ℚ) ≤ (h : ℚ) := by
      have hle : n₂ ≤ (h : Int) := by omega
      exact_mod_cast hle
    have hd₂ : |fdiv s (max 1 (t - v)) - y| ≤ ε * y := by
      rw [hmaxtv, hydef]
      exact hdiv s (t - v) (by omega)
    have hd₂nn : 0 ≤ fdiv s (max 1 (t - v)) :=
      fdiv_nonneg_of_err _ y ε hy0 hε1 hd₂
    have hm₂ := hmul (fdiv s (max 1 (t - v))) n₂ hd₂nn hn₂0
    set F₂ : ℚ := fmul (fdiv s (max 1 (t - v))) n₂ with hF₂def
    have hF₂near : |F₂ - y * ((n₂ : Int) : ℚ)| ≤ ε * (2 + ε) * (y * ((n₂ : Int) : ℚ)) :=
      double_rounding_near y ((n₂ : Int) : ℚ) (fdiv s (max 1 (t - v))) F₂ ε
        hy0 hn₂Q hε hd₂ hm₂
    have hV₂s : y * ((n₂ : Int) : ℚ) ≤ (s : ℚ) * (h : ℚ) :=
      mul_le_mul hys hn₂h hn₂Q hsQ
    have hV₂hs : (s : ℚ) * (h : ℚ) ≤ (h : ℚ) * ((s : ℚ) + 1) := by nlinarith
    have hV₂bound : ε * (2 + ε) * (y * ((n₂ : Int) : ℚ)) < 1 := by
      have hmono := mul_le_mul_of_nonneg_left (le_trans hV₂s hV₂hs) hfac
      linarith
    have hF₂lt : |F₂ - y * ((n₂ : Int) : ℚ)| < 1 := lt_of_le_of_lt hF₂near hV₂bound
    have hV₂0 : 0 ≤ y * ((n₂ : Int) : ℚ) := by positivity
    have hnear₂ : |pyInt F₂ - ⌊y * ((n₂ : Int) : ℚ)⌋| ≤ 1 := pyInt_near_floor F₂ _ hV₂0 hF₂lt
    refine ⟨th, pyInt F₂, ?_, hth1, hthh, ?_, ?_⟩
    · unfold drawScrollbarGeomF
      rw [if_neg (show ¬ t ≤ v by omega)]
    · rw [hxdef] at hprox₁
      exact hprox₁
    · rw [hydef, hn₂def] at hnear₂
      exact hnear₂

/-- Witness for C9 amended: with exact arithmetic (relative error 0) at 5
items, 2 visible rows, track height 6 and scroll offset 1, the rendered
geometry exists and satisfies the floor-proximity bounds. -/
theorem C9_scrollbar_geometry_witness :
    ∃ th tp : Int,
      drawScrollbarGeomF (fun a b => (a : ℚ) / b) (fun x n => x * (n : ℚ)) 5 2 6 1 =
        some (th, tp) ∧
      1 ≤ th ∧ th ≤ ((6 : Nat) : Int) ∧
      |th - max 1 ⌊((2 : Nat) : ℚ) / ((5 : Nat) : ℚ) * ((6 : Nat) : ℚ)⌋| ≤ 1 ∧
      |tp - ⌊((1 : Nat) : ℚ) / ((5 - 2 : Nat) : ℚ) * ((((6 : Nat) : Int) - th : Int) : ℚ)⌋| ≤ 1 :=
  (C9_scrollbar_geometry (fun a b => (a : ℚ) / b) (fun x n => x * (n : ℚ)) 0 5 2 6 1
    (fun a b _ => by simp) (fun x n _ _ => by simp) le_rfl (by norm_num) (by norm_num)).2
    (by omega) (by omega)
